import Mathlib

/-!
Verification of the GoDaddy libdns provider (caddy_dns_godaddy.go).

The Go code is embedded shallowly:

* `RR` is the libdns resource-record value (type, name, data, ttl); the
  provider only ever inspects records through `Record.RR()`, so records are
  modelled directly as `RR` values.
* `Provider` holds the configuration fields (`APIKey`, `APISecret`,
  `HTTPTimeout` in nanoseconds, as `caddy.Duration` is).
* HTTP is modelled by a deterministic oracle `Net : HttpRequest → NetResult`:
  a request either fails at transport level or yields a status code and a
  raw body.  JSON encoding/decoding (from `encoding/json`) is abstracted as
  explicit `encode`/`decode` function parameters.
* Every operation returns the list of wire requests it issued (its trace)
  together with its Go return value.  Go's `(T, error)` pairs become
  `Except String T` when exactly one of the two is meaningful, and
  `List RR × Option String` for the batch operations, which return both a
  partial result and an error simultaneously.
* Go error values are the exact strings `fmt.Errorf` would build.
-/

structure RR where
  type : String
  name : String
  data : String
  ttl : Nat
deriving DecidableEq

structure Provider where
  apiKey : String
  apiSecret : String
  httpTimeout : Nat
deriving DecidableEq

inductive Method where
  | get
  | patch
  | delete
deriving DecidableEq

structure HttpRequest where
  method : Method
  url : String
  body : String
  headers : List (String × String)
  timeout : Nat
deriving DecidableEq

inductive NetResult where
  | transportErr (e : String)
  | response (status : Nat) (body : String)
deriving DecidableEq

/-- The network environment: a deterministic map from wire requests to
transport outcomes. -/
def Net : Type := HttpRequest → NetResult

deriving instance DecidableEq for Except

/-- Model of Go's `strings.TrimSuffix s suffix`: drop `suffix` from the end
of `s` when it is present, otherwise return `s` unchanged. -/
def trimSuffix (s suffix : String) : String :=
  if suffix.data <:+ s.data then String.mk (s.data.take (s.data.length - suffix.data.length))
  else s

/-- Nanoseconds in a second (`time.Second`); `caddy.Duration` counts
nanoseconds. -/
def secondNs : Nat := 1000000000

/-- `Provision` (caddy_dns_godaddy.go:41-52): reject an empty API key or
secret, default the timeout to 30 seconds when it is zero.  It touches only
the `Provider` value, so by construction it performs no network activity. -/
def Provider.provision (p : Provider) : Except String Provider :=
  if p.apiKey = "" then .error "GoDaddy API key cannot be empty"
  else if p.apiSecret = "" then .error "GoDaddy API secret cannot be empty"
  else if p.httpTimeout = 0 then .ok { p with httpTimeout := 30 * secondNs }
  else .ok p

/-- The header/timeout decoration performed by `request`
(caddy_dns_godaddy.go:89-94): set the Authorization and Content-Type
headers and apply the configured client timeout. -/
def Provider.authorize (p : Provider) (req : HttpRequest) : HttpRequest :=
  { req with
    headers := [("Authorization", "sso-key " ++ p.apiKey ++ ":" ++ p.apiSecret),
                ("Content-Type", "application/json")],
    timeout := p.httpTimeout }

/-- `request` (caddy_dns_godaddy.go:89-94): decorate the request and hand it
to the HTTP client (the oracle). -/
def Provider.request (p : Provider) (net : Net) (req : HttpRequest) : NetResult :=
  net (p.authorize req)

/-- The records-collection URL `https://api.godaddy.com/v1/domains/{domain}/records`. -/
def recordsUrl (domain : String) : String :=
  "https://api.godaddy.com/v1/domains/" ++ domain ++ "/records"

/-- The name normalization shared by `createRecord` and `deleteRecord`
(caddy_dns_godaddy.go:196-199 and 239-242): strip `"." ++ domain` from the
record name, and substitute `"@"` when the result equals the bare domain. -/
def normalizeName (domain name : String) : String :=
  let recordName := trimSuffix name ("." ++ domain)
  if recordName = domain then "@" else recordName

/-- The raw GET request of `GetRecords` before it reaches `request`. -/
def getRequestRaw (zone : String) : HttpRequest :=
  { method := .get, url := recordsUrl (trimSuffix zone "."), body := "",
    headers := [], timeout := 0 }

/-- The wire request `GetRecords` issues: the raw request as decorated by
`request`. -/
def Provider.getRequest (p : Provider) (zone : String) : HttpRequest :=
  p.authorize (getRequestRaw zone)

/-- `GetRecords` (caddy_dns_godaddy.go:127-165): GET the records collection;
non-200 is an error carrying status and raw body; on 200, decode the body
and copy each record field-for-field (the `libdns.RR` rebuild loop at
lines 153-162). -/
def Provider.getRecords (p : Provider) (net : Net)
    (decode : String → Except String (List RR)) (zone : String) :
    List HttpRequest × Except String (List RR) :=
  let req := p.getRequest zone
  ([req],
    match net req with
    | .transportErr e => .error e
    | .response st body =>
      if st ≠ 200 then .error ("GoDaddy API request failed: " ++ toString st ++ " " ++ body)
      else
        match decode body with
        | .error e => .error e
        | .ok godaddyRecords =>
          .ok (godaddyRecords.map (fun gr =>
            { type := gr.type, name := gr.name, data := gr.data, ttl := gr.ttl })))

/-- The outgoing record `createRecord` builds (caddy_dns_godaddy.go:200-206):
same type, data and ttl, with the normalized name. -/
def outgoingRecord (domain : String) (record : RR) : RR :=
  { type := record.type, name := normalizeName domain record.name,
    data := record.data, ttl := record.ttl }

/-- The wire request `createRecord` issues: PATCH on the records collection
with the JSON-encoded one-element record array as body, decorated by
`request`. -/
def Provider.createRequest (p : Provider) (encode : List RR → String)
    (zone : String) (record : RR) : HttpRequest :=
  let domain := trimSuffix zone "."
  p.authorize
    { method := .patch, url := recordsUrl domain,
      body := encode [outgoingRecord domain record], headers := [], timeout := 0 }

/-- `createRecord` (caddy_dns_godaddy.go:194-233): PATCH the normalized
record; any status other than 200 is an error carrying status and raw body. -/
def Provider.createRecord (p : Provider) (net : Net) (encode : List RR → String)
    (zone : String) (record : RR) : List HttpRequest × Except String Unit :=
  let req := p.createRequest encode zone record
  ([req],
    match net req with
    | .transportErr e => .error e
    | .response st body =>
      if st ≠ 200 then .error ("failed to create DNS record: " ++ toString st ++ " " ++ body)
      else .ok ())

/-- The wire request `deleteRecord` issues: DELETE on
`/v1/domains/{domain}/records/{type}/{name}` with the normalized name,
decorated by `request`. -/
def Provider.deleteRequest (p : Provider) (zone : String) (record : RR) : HttpRequest :=
  let domain := trimSuffix zone "."
  p.authorize
    { method := .delete,
      url := "https://api.godaddy.com/v1/domains/" ++ domain ++ "/records/" ++
             record.type ++ "/" ++ normalizeName domain record.name,
      body := "", headers := [], timeout := 0 }

/-- `deleteRecord` (caddy_dns_godaddy.go:236-264): DELETE by type and
normalized name; any status other than 200 and 204 is an error carrying
status and raw body. -/
def Provider.deleteRecord (p : Provider) (net : Net) (zone : String) (record : RR) :
    List HttpRequest × Except String Unit :=
  let req := p.deleteRequest zone record
  ([req],
    match net req with
    | .transportErr e => .error e
    | .response st body =>
      if st ≠ 200 ∧ st ≠ 204 then
        .error ("failed to delete DNS record: " ++ toString st ++ " " ++ body)
      else .ok ())

/-- `AppendRecords` (caddy_dns_godaddy.go:97-109): create each record in
input order; the first failure stops the loop and returns the records
created so far together with the wrapped error. -/
def Provider.appendRecords (p : Provider) (net : Net) (encode : List RR → String)
    (zone : String) : List RR → List HttpRequest × List RR × Option String
  | [] => ([], [], none)
  | record :: rest =>
    let cr := p.createRecord net encode zone record
    match cr.2 with
    | .error e => (cr.1, [], some ("failed to create DNS record: " ++ e))
    | .ok _ =>
      let tail := p.appendRecords net encode zone rest
      (cr.1 ++ tail.1, record :: tail.2.1, tail.2.2)

/-- `DeleteRecords` (caddy_dns_godaddy.go:112-124): delete each record in
input order; the first failure stops the loop and returns the records
deleted so far together with the wrapped error. -/
def Provider.deleteRecords (p : Provider) (net : Net)
    (zone : String) : List RR → List HttpRequest × List RR × Option String
  | [] => ([], [], none)
  | record :: rest =>
    let dr := p.deleteRecord net zone record
    match dr.2 with
    | .error e => (dr.1, [], some ("failed to delete DNS record: " ++ e))
    | .ok _ =>
      let tail := p.deleteRecords net zone rest
      (dr.1 ++ tail.1, record :: tail.2.1, tail.2.2)

/-- The inner loop of `SetRecords` (caddy_dns_godaddy.go:177-186) for one
desired record: scan the fetched records and delete every entry whose type
and name both match, stopping at the first delete failure with the wrapped
error. -/
def Provider.deleteMatchesFor (p : Provider) (net : Net) (zone : String)
    (newRecord : RR) : List RR → List HttpRequest × Option String
  | [] => ([], none)
  | existing :: rest =>
    if existing.type = newRecord.type ∧ existing.name = newRecord.name then
      let dr := p.deleteRecord net zone existing
      match dr.2 with
      | .error e => (dr.1, some ("failed to delete existing record: " ++ e))
      | .ok _ =>
        let tail := p.deleteMatchesFor net zone newRecord rest
        (dr.1 ++ tail.1, tail.2)
    else p.deleteMatchesFor net zone newRecord rest

/-- The outer delete loop of `SetRecords` (caddy_dns_godaddy.go:176-187):
run the scan-and-delete for every desired record in input order, stopping
at the first failure. -/
def Provider.deletePhase (p : Provider) (net : Net) (zone : String)
    (existingRecords : List RR) : List RR → List HttpRequest × Option String
  | [] => ([], none)
  | newRecord :: rest =>
    let dm := p.deleteMatchesFor net zone newRecord existingRecords
    match dm.2 with
    | some e => (dm.1, some e)
    | none =>
      let tail := p.deletePhase net zone existingRecords rest
      (dm.1 ++ tail.1, tail.2)

/-- `SetRecords` (caddy_dns_godaddy.go:168-191): fetch the current records
(fail fast, returning nil on error), delete every existing entry matching a
desired record's type and name (returning nil on a delete failure), then
append all desired records. -/
def Provider.setRecords (p : Provider) (net : Net)
    (decode : String → Except String (List RR)) (encode : List RR → String)
    (zone : String) (records : List RR) : List HttpRequest × List RR × Option String :=
  let gr := p.getRecords net decode zone
  match gr.2 with
  | .error e => (gr.1, [], some e)
  | .ok existingRecords =>
    let dp := p.deletePhase net zone existingRecords records
    match dp.2 with
    | some e => (gr.1 ++ dp.1, [], some e)
    | none =>
      let ap := p.appendRecords net encode zone records
      (gr.1 ++ dp.1 ++ ap.1, ap.2.1, ap.2.2)

/-!  Derived predicates used by the theorems below. -/

/-- `createRecord` succeeded (returned a nil error) for this record. -/
@[reducible] def createOk (p : Provider) (net : Net) (encode : List RR → String)
    (zone : String) (r : RR) : Prop :=
  (p.createRecord net encode zone r).2 = .ok ()

/-- `deleteRecord` succeeded (returned a nil error) for this record. -/
@[reducible] def deleteOk (p : Provider) (net : Net) (zone : String) (r : RR) : Prop :=
  (p.deleteRecord net zone r).2 = .ok ()

/-- The match condition of the `SetRecords` scan: the existing entry has the
desired record's type and name. -/
def matchKey (newRecord existing : RR) : Prop :=
  existing.type = newRecord.type ∧ existing.name = newRecord.name

instance (newRecord existing : RR) : Decidable (matchKey newRecord existing) := by
  unfold matchKey
  infer_instance

/-- A wire request carries the provider's auth headers and timeout. -/
def authedBy (p : Provider) (req : HttpRequest) : Prop :=
  req.headers = [("Authorization", "sso-key " ++ p.apiKey ++ ":" ++ p.apiSecret),
                 ("Content-Type", "application/json")] ∧
  req.timeout = p.httpTimeout

/-!  Concrete environments used to evaluate the development on closed
inputs. -/

/-- A provider value with concrete credentials. -/
def p0 : Provider := { apiKey := "k", apiSecret := "s", httpTimeout := 5 }

/-- A happy-path network: every DELETE answers 204, everything else 200 with
an empty-array body. -/
def netOk : Net := fun req =>
  match req.method with
  | .delete => .response 204 ""
  | _ => .response 200 "[]"

/-- A network that answers every request with the same status and body. -/
def netConst (st : Nat) (body : String) : Net := fun _ => .response st body

/-- A concrete JSON encoder stand-in that lists the record names, enough to
tell requests for different records apart. -/
def encodeNames : List RR → String :=
  fun rs => String.join (rs.map (fun r => r.name ++ ";"))

/-- A concrete decoder stand-in returning no records. -/
def decodeNil : String → Except String (List RR) := fun _ => .ok []

/-- A concrete decoder stand-in returning one fixed TXT record. -/
def decodeOne : String → Except String (List RR) :=
  fun _ => .ok [{ type := "TXT", name := "_acme", data := "old", ttl := 300 }]

/-- A network that fails (HTTP 500) exactly on the PATCH request whose body
names the record "b", and succeeds elsewhere. -/
def netFailB : Net := fun req =>
  if req.body = "b;" then .response 500 "boom"
  else
    match req.method with
    | .delete => .response 204 ""
    | _ => .response 200 "[]"

/-- A concrete existing upstream state: one TXT record. -/
def existingTxt : List RR :=
  [{ type := "TXT", name := "_acme", data := "old", ttl := 300 }]

/-- A concrete desired set with two records sharing the same (type, name). -/
def desiredTxt : List RR :=
  [{ type := "TXT", name := "_acme", data := "new1", ttl := 300 },
   { type := "TXT", name := "_acme", data := "new2", ttl := 300 }]

/-!  Helper lemmas. -/

theorem trimSuffix_append (s t : String) : trimSuffix (s ++ t) t = s := by
  have hsuf : t.data <:+ (s ++ t).data := by
    rw [String.data_append]
    exact List.suffix_append _ _
  have htake : ((s ++ t).data).take ((s ++ t).data.length - t.data.length) = s.data := by
    rw [String.data_append, List.length_append, Nat.add_sub_cancel]
    exact List.take_left _ _
  unfold trimSuffix
  rw [if_pos hsuf, htake]

theorem trimSuffix_of_not_suffix (s t : String) (h : ¬ t.data <:+ s.data) :
    trimSuffix s t = s := by
  unfold trimSuffix
  rw [if_neg h]

theorem trimSuffix_dot_self (domain : String) :
    trimSuffix domain ("." ++ domain) = domain := by
  apply trimSuffix_of_not_suffix
  intro h
  have hlen := h.length_le
  rw [String.data_append] at hlen
  simp at hlen

theorem authedBy_authorize (p : Provider) (req : HttpRequest) :
    authedBy p (p.authorize req) :=
  ⟨rfl, rfl⟩

/-!  Claim theorems. -/

/-- C5: `Provision` fails with a configuration error exactly when the API
key or the API secret is empty; it is a pure function of the `Provider`
value (hence no network activity); and a zero/unspecified timeout is set to
30 seconds, so a provider provisioned with no timeout yields the same
provisioned value as one explicitly configured with 30 seconds. -/
theorem provision_validation (p : Provider) :
    ((∃ e, p.provision = .error e) ↔ (p.apiKey = "" ∨ p.apiSecret = "")) ∧
    (p.apiKey ≠ "" → p.apiSecret ≠ "" → p.httpTimeout = 0 →
      p.provision = .ok { p with httpTimeout := 30 * secondNs } ∧
      p.provision = Provider.provision { p with httpTimeout := 30 * secondNs }) := by
  constructor
  · constructor
    · rintro ⟨e, he⟩
      by_contra hc
      push_neg at hc
      rw [Provider.provision, if_neg hc.1, if_neg hc.2] at he
      by_cases ht : p.httpTimeout = 0
      · rw [if_pos ht] at he
        exact Except.noConfusion he
      · rw [if_neg ht] at he
        exact Except.noConfusion he
    · rintro (h | h)
      · exact ⟨_, by rw [Provider.provision, if_pos h]⟩
      · by_cases hk : p.apiKey = ""
        · exact ⟨_, by rw [Provider.provision, if_pos hk]⟩
        · exact ⟨_, by rw [Provider.provision, if_neg hk, if_pos h]⟩
  · intro hk hs ht
    constructor
    · rw [Provider.provision, if_neg hk, if_neg hs, if_pos ht]
    · rw [Provider.provision, if_neg hk, if_neg hs, if_pos ht,
          Provider.provision]
      simp only []
      rw [if_neg hk, if_neg hs, if_neg (by simp [secondNs])]

theorem provision_validation_witness :
    Provider.provision { apiKey := "k", apiSecret := "s", httpTimeout := 0 } =
      .ok { apiKey := "k", apiSecret := "s", httpTimeout := 30 * secondNs } ∧
    Provider.provision { apiKey := "k", apiSecret := "s", httpTimeout := 0 } =
      Provider.provision { apiKey := "k", apiSecret := "s", httpTimeout := 30 * secondNs } :=
  (provision_validation _).2 (by decide) (by decide) rfl

/-- C9: on an empty input sequence both batch operations return an empty
result, a nil error, and issue no HTTP request. -/
theorem batch_empty_noop (p : Provider) (net : Net) (encode : List RR → String)
    (zone : String) :
    p.appendRecords net encode zone [] = ([], [], none) ∧
    p.deleteRecords net zone [] = ([], [], none) :=
  ⟨rfl, rfl⟩

/-- C8: `deleteRecord` reads only the record's type and name, so two records
agreeing on those fields produce the identical wire request and the
identical result, whatever their data and ttl. -/
theorem deleteRecord_ignores_data_ttl (p : Provider) (net : Net) (zone : String)
    (r1 r2 : RR) (ht : r1.type = r2.type) (hn : r1.name = r2.name) :
    p.deleteRecord net zone r1 = p.deleteRecord net zone r2 := by
  simp only [Provider.deleteRecord, Provider.deleteRequest, ht, hn]

theorem deleteRecord_ignores_data_ttl_witness :
    Provider.deleteRecord p0 netOk "example.com."
        { type := "TXT", name := "_acme", data := "old", ttl := 300 } =
      Provider.deleteRecord p0 netOk "example.com."
        { type := "TXT", name := "_acme", data := "new", ttl := 600 } :=
  deleteRecord_ignores_data_ttl _ _ _ _ _ rfl rfl

/-!  Zone congruence: every operation consumes the zone only through
`trimSuffix zone "."`. -/

theorem getRecords_zone_congr (p : Provider) (net : Net)
    (decode : String → Except String (List RR)) (z1 z2 : String)
    (hz : trimSuffix z1 "." = trimSuffix z2 ".") :
    p.getRecords net decode z1 = p.getRecords net decode z2 := by
  simp only [Provider.getRecords, Provider.getRequest, getRequestRaw, hz]

theorem createRecord_zone_congr (p : Provider) (net : Net)
    (encode : List RR → String) (z1 z2 : String) (record : RR)
    (hz : trimSuffix z1 "." = trimSuffix z2 ".") :
    p.createRecord net encode z1 record = p.createRecord net encode z2 record := by
  simp only [Provider.createRecord, Provider.createRequest, hz]

theorem deleteRecord_zone_congr (p : Provider) (net : Net)
    (z1 z2 : String) (record : RR)
    (hz : trimSuffix z1 "." = trimSuffix z2 ".") :
    p.deleteRecord net z1 record = p.deleteRecord net z2 record := by
  simp only [Provider.deleteRecord, Provider.deleteRequest, hz]

theorem appendRecords_zone_congr (p : Provider) (net : Net)
    (encode : List RR → String) (z1 z2 : String) (records : List RR)
    (hz : trimSuffix z1 "." = trimSuffix z2 ".") :
    p.appendRecords net encode z1 records = p.appendRecords net encode z2 records := by
  induction records with
  | nil => rfl
  | cons record rest ih =>
    simp only [Provider.appendRecords, createRecord_zone_congr p net encode z1 z2 record hz, ih]

theorem deleteRecords_zone_congr (p : Provider) (net : Net)
    (z1 z2 : String) (records : List RR)
    (hz : trimSuffix z1 "." = trimSuffix z2 ".") :
    p.deleteRecords net z1 records = p.deleteRecords net z2 records := by
  induction records with
  | nil => rfl
  | cons record rest ih =>
    simp only [Provider.deleteRecords, deleteRecord_zone_congr p net z1 z2 record hz, ih]

theorem deleteMatchesFor_zone_congr (p : Provider) (net : Net)
    (z1 z2 : String) (newRecord : RR) (l : List RR)
    (hz : trimSuffix z1 "." = trimSuffix z2 ".") :
    p.deleteMatchesFor net z1 newRecord l = p.deleteMatchesFor net z2 newRecord l := by
  induction l with
  | nil => rfl
  | cons existing rest ih =>
    simp only [Provider.deleteMatchesFor,
      deleteRecord_zone_congr p net z1 z2 existing hz, ih]

theorem deletePhase_zone_congr (p : Provider) (net : Net)
    (z1 z2 : String) (existingRecords records : List RR)
    (hz : trimSuffix z1 "." = trimSuffix z2 ".") :
    p.deletePhase net z1 existingRecords records =
      p.deletePhase net z2 existingRecords records := by
  induction records with
  | nil => rfl
  | cons newRecord rest ih =>
    simp only [Provider.deletePhase,
      deleteMatchesFor_zone_congr p net z1 z2 newRecord existingRecords hz, ih]

theorem setRecords_zone_congr (p : Provider) (net : Net)
    (decode : String → Except String (List RR)) (encode : List RR → String)
    (z1 z2 : String) (records : List RR)
    (hz : trimSuffix z1 "." = trimSuffix z2 ".") :
    p.setRecords net decode encode z1 records = p.setRecords net decode encode z2 records := by
  simp only [Provider.setRecords,
    getRecords_zone_congr p net decode z1 z2 hz,
    deletePhase_zone_congr p net z1 z2 _ records hz,
    appendRecords_zone_congr p net encode z1 z2 records hz]

/-- C7: every operation strips a single trailing dot from the zone before
building its requests, so the zone with a trailing separator and the same
zone without one produce identical requests and identical results, for each
of the six operations. -/
theorem zone_trailing_dot_irrelevant (p : Provider) (net : Net)
    (decode : String → Except String (List RR)) (encode : List RR → String)
    (z : String) (records : List RR) (record : RR)
    (h : ¬ ("." : String).data <:+ z.data) :
    p.getRecords net decode (z ++ ".") = p.getRecords net decode z ∧
    p.createRecord net encode (z ++ ".") record = p.createRecord net encode z record ∧
    p.deleteRecord net (z ++ ".") record = p.deleteRecord net z record ∧
    p.appendRecords net encode (z ++ ".") records = p.appendRecords net encode z records ∧
    p.deleteRecords net (z ++ ".") records = p.deleteRecords net z records ∧
    p.setRecords net decode encode (z ++ ".") records = p.setRecords net decode encode z records := by
  have hz : trimSuffix (z ++ ".") "." = trimSuffix z "." := by
    rw [trimSuffix_append, trimSuffix_of_not_suffix z "." h]
  exact ⟨getRecords_zone_congr p net decode _ _ hz,
    createRecord_zone_congr p net encode _ _ record hz,
    deleteRecord_zone_congr p net _ _ record hz,
    appendRecords_zone_congr p net encode _ _ records hz,
    deleteRecords_zone_congr p net _ _ records hz,
    setRecords_zone_congr p net decode encode _ _ records hz⟩

theorem zone_trailing_dot_irrelevant_witness :
    Provider.getRecords p0 netOk decodeNil ("example.com" ++ ".") =
      Provider.getRecords p0 netOk decodeNil "example.com" ∧
    Provider.createRecord p0 netOk encodeNames ("example.com" ++ ".")
        { type := "A", name := "www.example.com", data := "1.2.3.4", ttl := 300 } =
      Provider.createRecord p0 netOk encodeNames "example.com"
        { type := "A", name := "www.example.com", data := "1.2.3.4", ttl := 300 } ∧
    Provider.deleteRecord p0 netOk ("example.com" ++ ".")
        { type := "A", name := "www.example.com", data := "1.2.3.4", ttl := 300 } =
      Provider.deleteRecord p0 netOk "example.com"
        { type := "A", name := "www.example.com", data := "1.2.3.4", ttl := 300 } ∧
    Provider.appendRecords p0 netOk encodeNames ("example.com" ++ ".") [] =
      Provider.appendRecords p0 netOk encodeNames "example.com" [] ∧
    Provider.deleteRecords p0 netOk ("example.com" ++ ".") [] =
      Provider.deleteRecords p0 netOk "example.com" [] ∧
    Provider.setRecords p0 netOk decodeNil encodeNames ("example.com" ++ ".") [] =
      Provider.setRecords p0 netOk decodeNil encodeNames "example.com" [] :=
  zone_trailing_dot_irrelevant p0 netOk decodeNil encodeNames "example.com" []
    { type := "A", name := "www.example.com", data := "1.2.3.4", ttl := 300 }
    (by decide)

/-- C4 counterexample: for zone "example.com." (domain "example.com") the
record name "example.com.example.com" equals subdomain ++ "." ++ domain
with subdomain "example.com", yet `createRecord` sends the record with
name "@", not with the subdomain portion. -/
theorem createRecord_subdomain_counterexample :
    "example.com.example.com" = "example.com" ++ "." ++ trimSuffix "example.com." "." ∧
    (Provider.createRecord p0 netOk encodeNames "example.com."
        { type := "TXT", name := "example.com.example.com", data := "v", ttl := 600 }).1 =
      [p0.authorize
        { method := .patch, url := recordsUrl "example.com",
          body := encodeNames [{ type := "TXT", name := "@", data := "v", ttl := 600 }],
          headers := [], timeout := 0 }] ∧
    "@" ≠ "example.com" := by
  refine ⟨by decide, by decide, by decide⟩

/-- C4 (amended): `createRecord` sends the record through the PATCH request
with the normalized name: when the absolute name equals
subdomain ++ "." ++ domain (domain being the zone with a trailing dot
stripped) the subdomain portion is sent, except that a subdomain equal to
the bare domain is sent as the literal token "@"; and when the absolute
name equals the bare domain, "@" is sent. -/
theorem createRecord_name_normalization (p : Provider) (net : Net)
    (encode : List RR → String) (zone : String) (record : RR) (sub : String) :
    (p.createRecord net encode zone record).1 =
      [p.authorize { method := .patch, url := recordsUrl (trimSuffix zone "."),
                     body := encode [outgoingRecord (trimSuffix zone ".") record],
                     headers := [], timeout := 0 }] ∧
    (record.name = sub ++ "." ++ trimSuffix zone "." →
      (outgoingRecord (trimSuffix zone ".") record).name =
        (if sub = trimSuffix zone "." then "@" else sub)) ∧
    (record.name = trimSuffix zone "." →
      (outgoingRecord (trimSuffix zone ".") record).name = "@") := by
  refine ⟨rfl, ?_, ?_⟩
  · intro h
    simp only [outgoingRecord, normalizeName, h, String.append_assoc, trimSuffix_append]
  · intro h
    simp [outgoingRecord, normalizeName, h, trimSuffix_dot_self]

theorem createRecord_name_normalization_witness :
    (outgoingRecord (trimSuffix "example.com." ".")
        { type := "A", name := "www.example.com", data := "1.2.3.4", ttl := 300 }).name =
      (if "www" = trimSuffix "example.com." "." then "@" else "www") ∧
    (outgoingRecord (trimSuffix "example.com." ".")
        { type := "A", name := "example.com", data := "1.2.3.4", ttl := 300 }).name = "@" :=
  ⟨(createRecord_name_normalization p0 netOk encodeNames "example.com."
      { type := "A", name := "www.example.com", data := "1.2.3.4", ttl := 300 } "www").2.1
      (by decide),
   (createRecord_name_normalization p0 netOk encodeNames "example.com."
      { type := "A", name := "example.com", data := "1.2.3.4", ttl := 300 } "www").2.2
      (by decide)⟩

/-!  Batch-loop characterizations. -/

theorem appendRecords_all_ok (p : Provider) (net : Net) (encode : List RR → String)
    (zone : String) : ∀ records : List RR,
    (∀ r ∈ records, createOk p net encode zone r) →
    (p.appendRecords net encode zone records).2 = (records, none)
  | [], _ => rfl
  | r :: rest, h => by
    have hr : (p.createRecord net encode zone r).2 = .ok () :=
      h r (List.mem_cons_self r rest)
    have ih := appendRecords_all_ok p net encode zone rest
      (fun r' hr' => h r' (List.mem_cons_of_mem r hr'))
    simp only [Provider.appendRecords, hr]
    rw [ih]

theorem appendRecords_first_fail (p : Provider) (net : Net) (encode : List RR → String)
    (zone : String) : ∀ (pre : List RR) (r : RR) (post : List RR) (e : String),
    (∀ r' ∈ pre, createOk p net encode zone r') →
    (p.createRecord net encode zone r).2 = .error e →
    (p.appendRecords net encode zone (pre ++ r :: post)).2 =
      (pre, some ("failed to create DNS record: " ++ e))
  | [], r, post, e, _, hf => by
    simp only [List.nil_append, Provider.appendRecords, hf]
  | r0 :: pre, r, post, e, h, hf => by
    have hr : (p.createRecord net encode zone r0).2 = .ok () :=
      h r0 (List.mem_cons_self r0 pre)
    have ih := appendRecords_first_fail p net encode zone pre r post e
      (fun r' hr' => h r' (List.mem_cons_of_mem r0 hr')) hf
    simp only [List.cons_append, Provider.appendRecords, hr]
    rw [List.append_eq, ih]

theorem deleteRecords_all_ok (p : Provider) (net : Net)
    (zone : String) : ∀ records : List RR,
    (∀ r ∈ records, deleteOk p net zone r) →
    (p.deleteRecords net zone records).2 = (records, none)
  | [], _ => rfl
  | r :: rest, h => by
    have hr : (p.deleteRecord net zone r).2 = .ok () :=
      h r (List.mem_cons_self r rest)
    have ih := deleteRecords_all_ok p net zone rest
      (fun r' hr' => h r' (List.mem_cons_of_mem r hr'))
    simp only [Provider.deleteRecords, hr]
    rw [ih]

theorem deleteRecords_first_fail (p : Provider) (net : Net)
    (zone : String) : ∀ (pre : List RR) (r : RR) (post : List RR) (e : String),
    (∀ r' ∈ pre, deleteOk p net zone r') →
    (p.deleteRecord net zone r).2 = .error e →
    (p.deleteRecords net zone (pre ++ r :: post)).2 =
      (pre, some ("failed to delete DNS record: " ++ e))
  | [], r, post, e, _, hf => by
    simp only [List.nil_append, Provider.deleteRecords, hf]
  | r0 :: pre, r, post, e, h, hf => by
    have hr : (p.deleteRecord net zone r0).2 = .ok () :=
      h r0 (List.mem_cons_self r0 pre)
    have ih := deleteRecords_first_fail p net zone pre r post e
      (fun r' hr' => h r' (List.mem_cons_of_mem r0 hr')) hf
    simp only [List.cons_append, Provider.deleteRecords, hr]
    rw [List.append_eq, ih]

/-- C2: both batch operations iterate in input order, invoking the
single-record operation per record; on full success they return the full
input with a nil error, and on the first per-record failure they stop and
return exactly the prefix processed so far together with a non-nil error
(no rollback is modelled or performed). -/
theorem batch_partial_failure (p : Provider) (net : Net) (encode : List RR → String)
    (zone : String) :
    (∀ records, (∀ r ∈ records, createOk p net encode zone r) →
      (p.appendRecords net encode zone records).2 = (records, none)) ∧
    (∀ (pre : List RR) (r : RR) (post : List RR) (e : String),
      (∀ r' ∈ pre, createOk p net encode zone r') →
      (p.createRecord net encode zone r).2 = .error e →
      (p.appendRecords net encode zone (pre ++ r :: post)).2 =
        (pre, some ("failed to create DNS record: " ++ e))) ∧
    (∀ records, (∀ r ∈ records, deleteOk p net zone r) →
      (p.deleteRecords net zone records).2 = (records, none)) ∧
    (∀ (pre : List RR) (r : RR) (post : List RR) (e : String),
      (∀ r' ∈ pre, deleteOk p net zone r') →
      (p.deleteRecord net zone r).2 = .error e →
      (p.deleteRecords net zone (pre ++ r :: post)).2 =
        (pre, some ("failed to delete DNS record: " ++ e))) :=
  ⟨appendRecords_all_ok p net encode zone,
   appendRecords_first_fail p net encode zone,
   deleteRecords_all_ok p net zone,
   deleteRecords_first_fail p net zone⟩

theorem batch_partial_failure_witness :
    (Provider.appendRecords p0 netFailB encodeNames "example.com"
        ([{ type := "A", name := "a", data := "1", ttl := 1 }] ++
          { type := "A", name := "b", data := "1", ttl := 1 } ::
          [{ type := "A", name := "c", data := "1", ttl := 1 }])).2 =
      ([{ type := "A", name := "a", data := "1", ttl := 1 }],
        some ("failed to create DNS record: " ++ "failed to create DNS record: 500 boom")) :=
  (batch_partial_failure p0 netFailB encodeNames "example.com").2.1
    [{ type := "A", name := "a", data := "1", ttl := 1 }]
    { type := "A", name := "b", data := "1", ttl := 1 }
    [{ type := "A", name := "c", data := "1", ttl := 1 }]
    "failed to create DNS record: 500 boom"
    (by decide) (by decide)

/-- C3: given any HTTP response, `GetRecords` and `createRecord` treat
exactly status 200 as success and `deleteRecord` treats exactly statuses
200 and 204 as success; every other status (201 included) yields the error
carrying the status code and the raw response body. -/
theorem status_code_boundary (p : Provider) (net : Net)
    (decode : String → Except String (List RR)) (encode : List RR → String)
    (zone : String) (record : RR) (st : Nat) (body : String) :
    (net (p.getRequest zone) = .response st body →
      (p.getRecords net decode zone).2 =
        (if st = 200 then
          Except.map (fun godaddyRecords => godaddyRecords.map (fun gr =>
            ({ type := gr.type, name := gr.name, data := gr.data, ttl := gr.ttl } : RR)))
            (decode body)
        else .error ("GoDaddy API request failed: " ++ toString st ++ " " ++ body))) ∧
    (net (p.createRequest encode zone record) = .response st body →
      (p.createRecord net encode zone record).2 =
        (if st = 200 then .ok ()
        else .error ("failed to create DNS record: " ++ toString st ++ " " ++ body))) ∧
    (net (p.deleteRequest zone record) = .response st body →
      (p.deleteRecord net zone record).2 =
        (if st = 200 ∨ st = 204 then .ok ()
        else .error ("failed to delete DNS record: " ++ toString st ++ " " ++ body))) := by
  refine ⟨?_, ?_, ?_⟩
  · intro h
    simp only [Provider.getRecords, h]
    by_cases h200 : st = 200
    · rw [if_pos h200, if_neg (by simp [h200])]
      rcases decode body with e | godaddyRecords
      · rfl
      · rfl
    · rw [if_neg h200, if_pos h200]
  · intro h
    simp only [Provider.createRecord, h]
    by_cases h200 : st = 200
    · rw [if_pos h200, if_neg (by simp [h200])]
    · rw [if_neg h200, if_pos h200]
  · intro h
    simp only [Provider.deleteRecord, h]
    by_cases hs : st = 200 ∨ st = 204
    · rw [if_pos hs, if_neg (by tauto)]
    · rw [if_neg hs, if_pos (by tauto)]

theorem status_code_boundary_witness :
    (Provider.getRecords p0 (netConst 201 "created") decodeNil "example.com").2 =
      .error ("GoDaddy API request failed: 201 created") ∧
    (Provider.createRecord p0 (netConst 201 "created") encodeNames "example.com"
        { type := "A", name := "www", data := "1", ttl := 1 }).2 =
      .error ("failed to create DNS record: 201 created") ∧
    (Provider.deleteRecord p0 (netConst 201 "created") "example.com"
        { type := "A", name := "www", data := "1", ttl := 1 }).2 =
      .error ("failed to delete DNS record: 201 created") := by
  have h := status_code_boundary p0 (netConst 201 "created") decodeNil encodeNames
    "example.com" { type := "A", name := "www", data := "1", ttl := 1 } 201 "created"
  refine ⟨?_, ?_, ?_⟩
  · rw [h.1 rfl]
    decide
  · rw [h.2.1 rfl]
    decide
  · rw [h.2.2 rfl]
    decide

/-!  The `SetRecords` delete phase characterized as a filter/flatMap. -/

theorem deleteMatchesFor_all_ok (p : Provider) (net : Net) (zone : String)
    (newRecord : RR) : ∀ existingRecords : List RR,
    (∀ ex ∈ existingRecords, deleteOk p net zone ex) →
    p.deleteMatchesFor net zone newRecord existingRecords =
      ((existingRecords.filter (fun ex => decide (matchKey newRecord ex))).map
        (p.deleteRequest zone), none)
  | [], _ => rfl
  | ex :: rest, h => by
    have ih := deleteMatchesFor_all_ok p net zone newRecord rest
      (fun ex' hex => h ex' (List.mem_cons_of_mem ex hex))
    by_cases hm : ex.type = newRecord.type ∧ ex.name = newRecord.name
    · have hok : (p.deleteRecord net zone ex).2 = .ok () :=
        h ex (List.mem_cons_self ex rest)
      have hfil : (ex :: rest).filter (fun ex' => decide (matchKey newRecord ex')) =
          ex :: rest.filter (fun ex' => decide (matchKey newRecord ex')) :=
        List.filter_cons_of_pos (decide_eq_true hm)
      simp only [Provider.deleteMatchesFor, if_pos hm, hok, hfil, List.map_cons]
      rw [ih]
      rfl
    · have hfil : (ex :: rest).filter (fun ex' => decide (matchKey newRecord ex')) =
          rest.filter (fun ex' => decide (matchKey newRecord ex')) :=
        List.filter_cons_of_neg (fun hc => hm (of_decide_eq_true hc))
      simp only [Provider.deleteMatchesFor, if_neg hm, hfil]
      exact ih

theorem deletePhase_all_ok (p : Provider) (net : Net) (zone : String)
    (existingRecords : List RR)
    (hok : ∀ ex ∈ existingRecords, deleteOk p net zone ex) :
    ∀ records : List RR,
    p.deletePhase net zone existingRecords records =
      (records.flatMap (fun r =>
        (existingRecords.filter (fun ex => decide (matchKey r ex))).map
          (p.deleteRequest zone)), none)
  | [] => rfl
  | r :: rest => by
    have hm := deleteMatchesFor_all_ok p net zone r existingRecords hok
    have ih := deletePhase_all_ok p net zone existingRecords hok rest
    simp only [Provider.deletePhase, hm, List.flatMap_cons]
    rw [ih]

/-- C1: `SetRecords` fetches current records first and returns immediately
with the fetch error (having issued only the GET); otherwise, when every
delete succeeds, it issues, for every desired record in input order, one
delete call per fetched record whose type and name equal the desired
record's (with no de-duplication of delete targets, as the flatMap repeats
the same fetched entry once per matching desired record), and finally
appends all desired records via `AppendRecords`. -/
theorem setRecords_reconciliation (p : Provider) (net : Net)
    (decode : String → Except String (List RR)) (encode : List RR → String)
    (zone : String) (records : List RR) :
    (∀ e, (p.getRecords net decode zone).2 = .error e →
      p.setRecords net decode encode zone records =
        ((p.getRecords net decode zone).1, [], some e)) ∧
    (∀ existingRecords, (p.getRecords net decode zone).2 = .ok existingRecords →
      (∀ ex ∈ existingRecords, deleteOk p net zone ex) →
      p.setRecords net decode encode zone records =
        ((p.getRecords net decode zone).1 ++
          records.flatMap (fun r =>
            (existingRecords.filter (fun ex => decide (matchKey r ex))).map
              (p.deleteRequest zone)) ++
          (p.appendRecords net encode zone records).1,
         (p.appendRecords net encode zone records).2.1,
         (p.appendRecords net encode zone records).2.2)) := by
  constructor
  · intro e he
    simp only [Provider.setRecords, he]
  · intro existingRecords hex hok
    simp only [Provider.setRecords, hex,
      deletePhase_all_ok p net zone existingRecords hok records]

theorem setRecords_reconciliation_witness :
    Provider.setRecords p0 netOk decodeOne encodeNames "example.com." desiredTxt =
      ((Provider.getRecords p0 netOk decodeOne "example.com.").1 ++
        desiredTxt.flatMap (fun r =>
          (existingTxt.filter (fun ex => decide (matchKey r ex))).map
            (Provider.deleteRequest p0 "example.com.")) ++
        (Provider.appendRecords p0 netOk encodeNames "example.com." desiredTxt).1,
       (Provider.appendRecords p0 netOk encodeNames "example.com." desiredTxt).2.1,
       (Provider.appendRecords p0 netOk encodeNames "example.com." desiredTxt).2.2) :=
  (setRecords_reconciliation p0 netOk decodeOne encodeNames "example.com."
    desiredTxt).2 existingTxt (by decide) (by decide)

/-!  Every traced request went through `authorize`. -/

theorem trace_getRecords (p : Provider) (net : Net)
    (decode : String → Except String (List RR)) (zone : String) (req : HttpRequest)
    (h : req ∈ (p.getRecords net decode zone).1) : authedBy p req := by
  have hr : req = p.getRequest zone := List.mem_singleton.mp h
  subst hr
  exact ⟨rfl, rfl⟩

theorem trace_createRecord (p : Provider) (net : Net) (encode : List RR → String)
    (zone : String) (record : RR) (req : HttpRequest)
    (h : req ∈ (p.createRecord net encode zone record).1) : authedBy p req := by
  have hr : req = p.createRequest encode zone record := List.mem_singleton.mp h
  subst hr
  exact ⟨rfl, rfl⟩

theorem trace_deleteRecord (p : Provider) (net : Net)
    (zone : String) (record : RR) (req : HttpRequest)
    (h : req ∈ (p.deleteRecord net zone record).1) : authedBy p req := by
  have hr : req = p.deleteRequest zone record := List.mem_singleton.mp h
  subst hr
  exact ⟨rfl, rfl⟩

theorem trace_appendRecords (p : Provider) (net : Net) (encode : List RR → String)
    (zone : String) : ∀ (records : List RR) (req : HttpRequest),
    req ∈ (p.appendRecords net encode zone records).1 → authedBy p req
  | [], req, h => absurd h (List.not_mem_nil req)
  | r :: rest, req, h => by
    simp only [Provider.appendRecords] at h
    rcases he : (p.createRecord net encode zone r).2 with e | u <;> simp only [he] at h
    · exact trace_createRecord p net encode zone r req h
    · rcases List.mem_append.mp h with h1 | h2
      · exact trace_createRecord p net encode zone r req h1
      · exact trace_appendRecords p net encode zone rest req h2

theorem trace_deleteRecords (p : Provider) (net : Net)
    (zone : String) : ∀ (records : List RR) (req : HttpRequest),
    req ∈ (p.deleteRecords net zone records).1 → authedBy p req
  | [], req, h => absurd h (List.not_mem_nil req)
  | r :: rest, req, h => by
    simp only [Provider.deleteRecords] at h
    rcases he : (p.deleteRecord net zone r).2 with e | u <;> simp only [he] at h
    · exact trace_deleteRecord p net zone r req h
    · rcases List.mem_append.mp h with h1 | h2
      · exact trace_deleteRecord p net zone r req h1
      · exact trace_deleteRecords p net zone rest req h2

theorem trace_deleteMatchesFor (p : Provider) (net : Net) (zone : String)
    (newRecord : RR) : ∀ (existingRecords : List RR) (req : HttpRequest),
    req ∈ (p.deleteMatchesFor net zone newRecord existingRecords).1 → authedBy p req
  | [], req, h => absurd h (List.not_mem_nil req)
  | ex :: rest, req, h => by
    simp only [Provider.deleteMatchesFor] at h
    by_cases hm : ex.type = newRecord.type ∧ ex.name = newRecord.name
    · rw [if_pos hm] at h
      rcases he : (p.deleteRecord net zone ex).2 with e | u <;> simp only [he] at h
      · exact trace_deleteRecord p net zone ex req h
      · rcases List.mem_append.mp h with h1 | h2
        · exact trace_deleteRecord p net zone ex req h1
        · exact trace_deleteMatchesFor p net zone newRecord rest req h2
    · rw [if_neg hm] at h
      exact trace_deleteMatchesFor p net zone newRecord rest req h

theorem trace_deletePhase (p : Provider) (net : Net) (zone : String)
    (existingRecords : List RR) : ∀ (records : List RR) (req : HttpRequest),
    req ∈ (p.deletePhase net zone existingRecords records).1 → authedBy p req
  | [], req, h => absurd h (List.not_mem_nil req)
  | r :: rest, req, h => by
    simp only [Provider.deletePhase] at h
    rcases he : (p.deleteMatchesFor net zone r existingRecords).2 with _ | e <;>
      simp only [he] at h
    · rcases List.mem_append.mp h with h1 | h2
      · exact trace_deleteMatchesFor p net zone r existingRecords req h1
      · exact trace_deletePhase p net zone existingRecords rest req h2
    · exact trace_deleteMatchesFor p net zone r existingRecords req h

theorem trace_setRecords (p : Provider) (net : Net)
    (decode : String → Except String (List RR)) (encode : List RR → String)
    (zone : String) (records : List RR) (req : HttpRequest)
    (h : req ∈ (p.setRecords net decode encode zone records).1) : authedBy p req := by
  simp only [Provider.setRecords] at h
  rcases hg : (p.getRecords net decode zone).2 with e | existingRecords <;>
    simp only [hg] at h
  · exact trace_getRecords p net decode zone req h
  · rcases hd : (p.deletePhase net zone existingRecords records).2 with _ | e <;>
      simp only [hd] at h
    · rcases List.mem_append.mp h with h1 | h2
      · rcases List.mem_append.mp h1 with h3 | h4
        · exact trace_getRecords p net decode zone req h3
        · exact trace_deletePhase p net zone existingRecords records req h4
      · exact trace_appendRecords p net encode zone records req h2
    · rcases List.mem_append.mp h with h1 | h2
      · exact trace_getRecords p net decode zone req h1
      · exact trace_deletePhase p net zone existingRecords records req h2

/-- C6: every remote call issued by the four public operations is a request
decorated by the transport helper: it carries the Authorization header
`sso-key <key>:<secret>`, the Content-Type `application/json`, and the
configured timeout. -/
theorem all_requests_authorized (p : Provider) (net : Net)
    (decode : String → Except String (List RR)) (encode : List RR → String)
    (zone : String) (records : List RR) (req : HttpRequest) :
    (req ∈ (p.getRecords net decode zone).1 → authedBy p req) ∧
    (req ∈ (p.appendRecords net encode zone records).1 → authedBy p req) ∧
    (req ∈ (p.deleteRecords net zone records).1 → authedBy p req) ∧
    (req ∈ (p.setRecords net decode encode zone records).1 → authedBy p req) :=
  ⟨trace_getRecords p net decode zone req,
   trace_appendRecords p net encode zone records req,
   trace_deleteRecords p net zone records req,
   trace_setRecords p net decode encode zone records req⟩

theorem all_requests_authorized_witness :
    authedBy p0 (Provider.getRequest p0 "example.com") :=
  (all_requests_authorized p0 netOk decodeNil encodeNames "example.com" []
    (Provider.getRequest p0 "example.com")).1 (by decide)

/-- C10: when `SetRecords` fails during the initial fetch or during the
delete phase, it returns a nil (empty) record list together with the error,
discarding partial progress; only when the delete phase completes does the
result (record list and error alike) come from the final `AppendRecords`
phase, which alone can pair a non-empty partial list with an error. -/
theorem setRecords_error_phases (p : Provider) (net : Net)
    (decode : String → Except String (List RR)) (encode : List RR → String)
    (zone : String) (records : List RR) :
    (∀ e, (p.getRecords net decode zone).2 = .error e →
      (p.setRecords net decode encode zone records).2 = ([], some e)) ∧
    (∀ existingRecords e, (p.getRecords net decode zone).2 = .ok existingRecords →
      (p.deletePhase net zone existingRecords records).2 = some e →
      (p.setRecords net decode encode zone records).2 = ([], some e)) ∧
    (∀ existingRecords, (p.getRecords net decode zone).2 = .ok existingRecords →
      (p.deletePhase net zone existingRecords records).2 = none →
      (p.setRecords net decode encode zone records).2 =
        (p.appendRecords net encode zone records).2) := by
  refine ⟨?_, ?_, ?_⟩
  · intro e he
    simp only [Provider.setRecords, he]
  · intro existingRecords e hex hd
    simp only [Provider.setRecords, hex, hd]
  · intro existingRecords hex hd
    simp only [Provider.setRecords, hex, hd]

theorem setRecords_error_phases_witness :
    (Provider.setRecords p0 (netConst 500 "oops") decodeNil encodeNames
        "example.com" desiredTxt).2 =
      ([], some ("GoDaddy API request failed: 500 oops")) :=
  (setRecords_error_phases p0 (netConst 500 "oops") decodeNil encodeNames
    "example.com" desiredTxt).1 "GoDaddy API request failed: 500 oops" (by decide)
